import Mathlib

/-
Verification of the streaming reframing pipeline of the 1min AI gateway
(src/index.js).  The pipeline consumes an upstream byte stream of
newline-delimited `data: <json>` records, re-frames it into OpenAI-style
chat-completion chunks (`handleChatStreaming`), and optionally re-wraps that
textual stream into the Responses wire shape (`handleResponsesStreaming`).

Text is modelled at the level of sequences of characters (`List Char` inside
the pipeline, `String` at its boundary), mirroring the JavaScript string
operations used by the source (`split('\n')`, `startsWith`, `slice`, `trim`).
JSON values are modelled by the inductive `Json` below; JSON numbers are
modelled as integers (no claim under scrutiny involves fractional payloads).
`JSON.parse` is modelled by the fuel-based recursive-descent parser `jParse`
and `JSON.stringify` by `jStr`.
-/

/-- Model of a JavaScript JSON value, as produced by `JSON.parse`.
Numbers are modelled as integers. -/
inductive Json where
  | null : Json
  | bool (b : Bool) : Json
  | num (n : Int) : Json
  | str (s : String) : Json
  | arr (elems : List Json) : Json
  | obj (members : List (String × Json)) : Json

namespace Json

/-- JavaScript truthiness (`ToBoolean`) of a JSON value: `null`, `false`,
`0` and `""` are falsy; every array and object (even empty) is truthy. -/
def truthy : Json → Bool
  | .null => false
  | .bool b => b
  | .num n => n ≠ 0
  | .str s => s ≠ ""
  | .arr _ => true
  | .obj _ => true

/-- Property lookup `v[k]` on a JSON value: `some` when `v` is an object
carrying the key (the last occurrence wins, as after `JSON.parse`),
`none` (JavaScript `undefined`) otherwise.  Lookup on `Json.null` is treated
separately by callers, since `null.k` throws in JavaScript. -/
def getField (v : Json) (k : String) : Option Json :=
  match v with
  | .obj ms => (ms.filter (fun m => m.1 = k)).getLast? |>.map (·.2)
  | _ => none

end Json

/-- The JavaScript string coercion `'' + v` used by `completeResponse += content`:
strings stay themselves, numbers and booleans render, arrays join their
elements with commas (`null` renders empty inside arrays), objects render as
`[object Object]`. -/
def jsToString : Json → String
  | .null => "null"
  | .bool true => "true"
  | .bool false => "false"
  | .num n => if n < 0 then "-" ++ toString n.natAbs else toString n.natAbs
  | .str s => s
  | .arr xs => String.intercalate "," (xs.map fun x =>
      match x with
      | .null => ""
      | .str s => s
      | .bool true => "true"
      | .bool false => "false"
      | .num n => if n < 0 then "-" ++ toString n.natAbs else toString n.natAbs
      | _ => "")
  | .obj _ => "[object Object]"

/-- The short-circuiting JavaScript `a || b` where `a` is a property that may
be `undefined` (`none`): the value of `a` when defined and truthy, else `b`. -/
def jsOrElse (a : Option Json) (b : Json) : Json :=
  match a with
  | some v => if v.truthy then v else b
  | none => b

/-! ### Decimal rendering of numbers (chars of `JSON.stringify` for `Json.num`) -/

/-- Decimal digit character of `d < 10`. -/
def digitChar (d : Nat) : Char :=
  Char.ofNat (48 + d)

/-- Fuel-based decimal digits of a natural number, most significant first. -/
def natChars (fuel : Nat) (n : Nat) : List Char :=
  match fuel with
  | 0 => []
  | fuel + 1 => if n < 10 then [digitChar n] else natChars fuel (n / 10) ++ [digitChar (n % 10)]

/-- Decimal rendering of a natural number as characters. -/
def natStr (n : Nat) : List Char := natChars (n + 1) n

/-- Decimal rendering of an integer as characters, as `JSON.stringify` emits it. -/
def intStr (n : Int) : List Char :=
  if n < 0 then '-' :: natStr n.natAbs else natStr n.natAbs

/-! ### `JSON.stringify` -/

/-- Lower-case hexadecimal digit character of `d < 16`. -/
def hexChar (d : Nat) : Char :=
  if d < 10 then Char.ofNat (48 + d) else Char.ofNat (87 + d)

/-- Escaping of one character inside a JSON string literal, as
`JSON.stringify` performs it: `"` and `\` get a backslash, the control
characters with short escapes use them, the remaining control characters
become `\u00XX`, and everything else passes through unchanged. -/
def escChar (c : Char) : List Char :=
  if c = '"' then ['\\', '"']
  else if c = '\\' then ['\\', '\\']
  else if c = '\n' then ['\\', 'n']
  else if c = '\r' then ['\\', 'r']
  else if c = '\t' then ['\\', 't']
  else if c = '\x08' then ['\\', 'b']
  else if c = '\x0c' then ['\\', 'f']
  else if c.toNat < 32 then ['\\', 'u', '0', '0', hexChar (c.toNat / 16), hexChar (c.toNat % 16)]
  else [c]

/-- Characters of a JSON string literal (quotes included). -/
def strLit (s : String) : List Char :=
  '"' :: s.data.flatMap escChar ++ ['"']

mutual

/-- Characters of `JSON.stringify v`. -/
def jStr : Json → List Char
  | .null => "null".data
  | .bool true => "true".data
  | .bool false => "false".data
  | .num n => intStr n
  | .str s => strLit s
  | .arr xs => '[' :: jStrElems xs ++ [']']
  | .obj ms => '\x7b' :: jStrMembers ms ++ ['\x7d']

/-- Characters of the comma-separated element list of a stringified array. -/
def jStrElems : List Json → List Char
  | [] => []
  | [x] => jStr x
  | x :: y :: xs => jStr x ++ ',' :: jStrElems (y :: xs)

/-- Characters of the comma-separated member list of a stringified object. -/
def jStrMembers : List (String × Json) → List Char
  | [] => []
  | [(k, v)] => strLit k ++ ':' :: jStr v
  | (k, v) :: m :: ms => strLit k ++ ':' :: jStr v ++ ',' :: jStrMembers (m :: ms)

end

/-! ### `JSON.parse` (fuel-based recursive descent) -/

/-- JSON insignificant whitespace (space, tab, line feed, carriage return). -/
def isJsonWs (c : Char) : Bool :=
  c = ' ' || c = '\t' || c = '\n' || c = '\r'

/-- Drop leading JSON whitespace. -/
def skipWs : List Char → List Char
  | [] => []
  | c :: cs => if isJsonWs c then skipWs cs else c :: cs

/-- Value of a hexadecimal digit character. -/
def hexVal (c : Char) : Option Nat :=
  if '0' ≤ c ∧ c ≤ '9' then some (c.toNat - 48)
  else if 'a' ≤ c ∧ c ≤ 'f' then some (c.toNat - 87)
  else if 'A' ≤ c ∧ c ≤ 'F' then some (c.toNat - 55)
  else none

/-- Body of a JSON string literal after the opening quote: characters up to
the closing quote, with escape sequences resolved; fails on a raw control
character, an unknown escape, or a missing closing quote. -/
def parseStrBody (fuel : Nat) (cs : List Char) : Option (List Char × List Char) :=
  match fuel with
  | 0 => none
  | fuel + 1 =>
    match cs with
    | [] => none
    | '"' :: rest => some ([], rest)
    | '\\' :: rest =>
      match rest with
      | '"' :: r => (parseStrBody fuel r).map fun p => ('"' :: p.1, p.2)
      | '\\' :: r => (parseStrBody fuel r).map fun p => ('\\' :: p.1, p.2)
      | '/' :: r => (parseStrBody fuel r).map fun p => ('/' :: p.1, p.2)
      | 'b' :: r => (parseStrBody fuel r).map fun p => ('\x08' :: p.1, p.2)
      | 'f' :: r => (parseStrBody fuel r).map fun p => ('\x0c' :: p.1, p.2)
      | 'n' :: r => (parseStrBody fuel r).map fun p => ('\n' :: p.1, p.2)
      | 'r' :: r => (parseStrBody fuel r).map fun p => ('\r' :: p.1, p.2)
      | 't' :: r => (parseStrBody fuel r).map fun p => ('\t' :: p.1, p.2)
      | 'u' :: a :: b :: c :: d :: r =>
        match hexVal a, hexVal b, hexVal c, hexVal d with
        | some ha, some hb, some hc, some hd =>
          (parseStrBody fuel r).map fun p =>
            (Char.ofNat (((ha * 16 + hb) * 16 + hc) * 16 + hd) :: p.1, p.2)
        | _, _, _, _ => none
      | _ => none
    | c :: rest =>
      if c.toNat < 32 then none
      else (parseStrBody fuel rest).map fun p => (c :: p.1, p.2)

/-- Digits of a JSON integer after an optional leading sign: `0` alone or a
nonzero digit followed by digits (JSON forbids leading zeros). -/
def parseDigits (fuel : Nat) (acc : Nat) (cs : List Char) : Nat × List Char :=
  match fuel with
  | 0 => (acc, cs)
  | fuel + 1 =>
    match cs with
    | c :: rest =>
      if '0' ≤ c ∧ c ≤ '9' then parseDigits fuel (acc * 10 + (c.toNat - 48)) rest
      else (acc, cs)
    | [] => (acc, cs)

/-- Parse the integer part of a JSON number from a digit run; fails on a
leading zero followed by more digits, and on a following `.`, `e` or `E`
(fractional and exponential numbers sit outside this integer-valued model). -/
def parseNumTail (fuel : Nat) (cs : List Char) : Option (Nat × List Char) :=
  match cs with
  | c :: rest =>
    if c = '0' then
      match rest with
      | d :: _ =>
        if ('0' ≤ d ∧ d ≤ '9') ∨ d = '.' ∨ d = 'e' ∨ d = 'E' then none
        else some (0, rest)
      | [] => some (0, [])
    else if '1' ≤ c ∧ c ≤ '9' then
      let p := parseDigits fuel (c.toNat - 48) rest
      match p.2 with
      | d :: _ => if d = '.' ∨ d = 'e' ∨ d = 'E' then none else some p
      | [] => some p
    else none
  | [] => none

mutual

/-- Parse one JSON value, returning it with the unconsumed remainder. -/
def parseVal (fuel : Nat) (cs : List Char) : Option (Json × List Char) :=
  match fuel with
  | 0 => none
  | fuel + 1 =>
    match skipWs cs with
    | 'n' :: 'u' :: 'l' :: 'l' :: r => some (.null, r)
    | 't' :: 'r' :: 'u' :: 'e' :: r => some (.bool true, r)
    | 'f' :: 'a' :: 'l' :: 's' :: 'e' :: r => some (.bool false, r)
    | '"' :: r => (parseStrBody (r.length + 1) r).map fun p => (.str (String.mk p.1), p.2)
    | '-' :: r => (parseNumTail (r.length + 1) r).map fun p => (.num (-(p.1 : Int)), p.2)
    | '[' :: r =>
      (match skipWs r with
       | ']' :: r' => some (.arr [], r')
       | _ => (parseElems fuel r).map fun p => (.arr p.1, p.2))
    | '\x7b' :: r =>
      (match skipWs r with
       | '\x7d' :: r' => some (.obj [], r')
       | _ => (parseMembers fuel r).map fun p => (.obj p.1, p.2))
    | c :: r =>
      if '0' ≤ c ∧ c ≤ '9' then
        (parseNumTail (r.length + 2) (c :: r)).map fun p => (.num (p.1 : Int), p.2)
      else none
    | [] => none

/-- Parse the nonempty comma-separated element list of a JSON array,
including the closing bracket. -/
def parseElems (fuel : Nat) (cs : List Char) : Option (List Json × List Char) :=
  match fuel with
  | 0 => none
  | fuel + 1 =>
    match parseVal fuel cs with
    | none => none
    | some (v, r) =>
      match skipWs r with
      | ',' :: r' => (parseElems fuel r').map fun p => (v :: p.1, p.2)
      | ']' :: r' => some ([v], r')
      | _ => none

/-- Parse the nonempty comma-separated member list of a JSON object,
including the closing brace. -/
def parseMembers (fuel : Nat) (cs : List Char) : Option (List (String × Json) × List Char) :=
  match fuel with
  | 0 => none
  | fuel + 1 =>
    match skipWs cs with
    | '"' :: r =>
      match parseStrBody (r.length + 1) r with
      | none => none
      | some (k, r1) =>
        match skipWs r1 with
        | ':' :: r2 =>
          match parseVal fuel r2 with
          | none => none
          | some (v, r3) =>
            match skipWs r3 with
            | ',' :: r4 => (parseMembers fuel r4).map fun p => ((String.mk k, v) :: p.1, p.2)
            | '\x7d' :: r4 => some ([(String.mk k, v)], r4)
            | _ => none
        | _ => none
    | _ => none

end

/-- Model of `JSON.parse` on a character sequence: one JSON value surrounded
by optional whitespace; `none` models a thrown `SyntaxError`. -/
def jParse (cs : List Char) : Option Json :=
  match parseVal (cs.length + 1) cs with
  | some (v, r) => if skipWs r = [] then some v else none
  | none => none

/-! ### Line framing (`buffer += chunk; lines = buffer.split('\n'); buffer = lines.pop()`) -/

/-- `split('\n')` presented as the pair (complete lines, trailing fragment):
`splitP s = (ls, fr)` means `s.split('\n') = ls ++ [fr]`. -/
def splitP : List Char → List (List Char) × List Char
  | [] => ([], [])
  | c :: rest =>
    let p := splitP rest
    if c = '\n' then ([] :: p.1, p.2)
    else
      match p.1 with
      | [] => ([], c :: p.2)
      | l :: ls => ((c :: l) :: ls, p.2)

/-- Whitespace stripped by JavaScript `String.prototype.trim` (ASCII part). -/
def isTrimWs (c : Char) : Bool :=
  c = ' ' || c = '\t' || c = '\n' || c = '\r' || c = '\x0b' || c = '\x0c'

/-- JavaScript `String.prototype.trim` on a character sequence. -/
def trimChars (l : List Char) : List Char :=
  ((l.dropWhile isTrimWs).reverse.dropWhile isTrimWs).reverse

/-- `line.startsWith('data: ')`. -/
def startsWithData (l : List Char) : Bool :=
  decide (l.take 6 = "data: ".data)

/-! ### Stage one: `handleChatStreaming` (src/index.js lines 260-333) -/

/-- The mutable accumulation state of `handleChatStreaming`:
`completeResponse` and `totalCompletionTokens` (src/index.js lines 264-265). -/
structure ChatState where
  completeResponse : String
  totalCompletionTokens : Nat
  deriving DecidableEq

/-- Initial accumulation state: empty text, zero tokens. -/
def initChatState : ChatState := ChatState.mk "" 0

/-- One record of an emitted SSE stream: either a `data: <json>` record or
the `data: [DONE]` sentinel. -/
inductive OutRec where
  | data (v : Json) : OutRec
  | done : OutRec

/-- Modelled from the spec: `createUsageObject` lives in `src/tokens.js`,
which is absent from the sources; per the spec the usage summary carries the
prompt-token count, the completion-token count, and their sum. -/
def createUsageObject (promptTokens completionTokens : Nat) : Json :=
  .obj [("prompt_tokens", .num promptTokens),
        ("completion_tokens", .num completionTokens),
        ("total_tokens", .num (promptTokens + completionTokens))]

/-- The expression `parsed.response || parsed.text || ''` (src/index.js
lines 304 and 551), evaluated on a non-null parsed value. -/
def rawContent (parsed : Json) : Json :=
  jsOrElse (parsed.getField "response") (jsOrElse (parsed.getField "text") (.str ""))

/-- `transformStreamChunk` (src/index.js lines 541-557); `now` stands for
`Date.now()` at the moment of the call. -/
def transformStreamChunk (chunk : Json) (now : Nat) : Json :=
  .obj [("id", .str (String.mk ("chatcmpl-".data ++ natStr now))),
        ("object", .str "chat.completion.chunk"),
        ("created", .num (now / 1000)),
        ("model", jsOrElse (chunk.getField "model") (.str "gpt-3.5-turbo")),
        ("system_fingerprint", .null),
        ("choices", .arr [.obj [("index", .num 0),
                                ("delta", .obj [("content", rawContent chunk)]),
                                ("logprobs", .null),
                                ("finish_reason", .null)]])]

/-- The synthesized terminal chunk built when the upstream read reports
`done` (src/index.js lines 274-286). -/
def finalChunk (now promptTokens totalCompletionTokens : Nat) : Json :=
  .obj [("id", .str (String.mk ("chatcmpl-".data ++ natStr now))),
        ("object", .str "chat.completion.chunk"),
        ("created", .num (now / 1000)),
        ("model", .str "gpt-3.5-turbo"),
        ("choices", .arr [.obj [("index", .num 0),
                                ("delta", .obj []),
                                ("logprobs", .null),
                                ("finish_reason", .str "stop")]]),
        ("usage", createUsageObject promptTokens totalCompletionTokens)]

/-- Processing of one complete line by stage one (src/index.js lines
297-315): ignore lines without the `data: ` prefix, skip sentinel and empty
payloads, parse the payload, accumulate truthy content into the state with a
re-run of the token estimator `est`, and emit the transformed chunk.  A parse
failure, or the `TypeError` thrown by `parsed.response` when the payload is
`null`, is caught and skipped. -/
def processLine (est : String → Nat) (now : Nat) (st : ChatState) (line : List Char) :
    ChatState × List OutRec :=
  if startsWithData line then
    if trimChars (line.drop 6) = "[DONE]".data ∨ trimChars (line.drop 6) = [] then (st, [])
    else
      match jParse (trimChars (line.drop 6)) with
      | none => (st, [])
      | some .null => (st, [])
      | some parsed =>
        (if (rawContent parsed).truthy then
            ChatState.mk (st.completeResponse ++ jsToString (rawContent parsed))
              (est (st.completeResponse ++ jsToString (rawContent parsed)))
          else st,
         [.data (transformStreamChunk parsed now)])
  else (st, [])

/-- Processing of a run of complete lines, threading the state and
concatenating the emitted records in order. -/
def processLines (est : String → Nat) (now : Nat) (st : ChatState) :
    List (List Char) → ChatState × List OutRec
  | [] => (st, [])
  | l :: ls =>
    let p := processLine est now st l
    let q := processLines est now p.1 ls
    (q.1, p.2 ++ q.2)

/-- The read loop of `handleChatStreaming` (src/index.js lines 271-316):
per read chunk, append to the buffer, split off the complete lines, keep the
trailing fragment, process the lines; when the upstream reports done, emit
the terminal chunk (from the current token total) and the sentinel.  The
residual buffer is dropped at end-of-stream, exactly as in the source. -/
def chatLoop (est : String → Nat) (now promptTokens : Nat) (st : ChatState) (buf : List Char) :
    List String → List OutRec
  | [] => [.data (finalChunk now promptTokens st.totalCompletionTokens), .done]
  | c :: cs =>
    let p := splitP (buf ++ c.data)
    let q := processLines est now st p.1
    q.2 ++ chatLoop est now promptTokens q.1 p.2 cs

/-- `handleChatStreaming` (src/index.js lines 260-333) as a function from
the upstream read chunks (decoded text) to the emitted records.  `est` is the
external token estimator `calculateCompletionTokens` (src/tokens.js, a pure
function of the accumulated text per the spec), `now` stands for `Date.now()`
and `promptTokens` is the precomputed prompt-token count. -/
def handleChatStreaming (est : String → Nat) (now promptTokens : Nat)
    (chunks : List String) : List OutRec :=
  chatLoop est now promptTokens initChatState [] chunks

/-- Wire form of an emitted record: `data: ${JSON.stringify(v)}\n\n`, or the
literal sentinel record. -/
def wireOf : OutRec → String
  | .data v => "data: " ++ String.mk (jStr v) ++ "\n\n"
  | .done => "data: [DONE]\n\n"

/-! ### Stage two: `handleResponsesStreaming` (src/index.js lines 335-388) -/

/-- JavaScript `String.replace` with a plain-string pattern: replace the
first occurrence only, leave the string unchanged when the pattern is
absent. -/
def replaceFirstChars (pat repl : List Char) : List Char → List Char
  | [] => if pat.isPrefixOf ([] : List Char) then repl else []
  | c :: rest =>
    if pat.isPrefixOf (c :: rest) then repl ++ (c :: rest).drop pat.length
    else c :: replaceFirstChars pat repl rest

/-- `String.replace` lifted to `String`. -/
def replaceFirst (s pat repl : String) : String :=
  String.mk (replaceFirstChars pat.data repl.data s.data)

/-- One entry of the `output` list built by
`transformChatChunkToResponsesChunk` (src/index.js lines 440-452): `none`
models the `TypeError` thrown by `choice.index` on a null choice; keys whose
value would be `undefined` are omitted, as `JSON.stringify` omits them. -/
def choiceItem (choice : Json) : Option Json :=
  match choice with
  | .null => none
  | _ => some (.obj (
      (match choice.getField "index" with
       | some v => [("index", v)]
       | none => [])
      ++ [("object", .str "response.chunk.delta")]
      ++ (match choice.getField "delta" with
          | some d =>
            if d.truthy then
              match d.getField "content" with
              | some cv => [("delta", cv)]
              | none => []
            else []
          | none => [])
      ++ (match choice.getField "finish_reason" with
          | some f => if f.truthy then [("finish_reason", f)] else []
          | none => [])))

/-- `choices.map(...)` of src/index.js line 440: the first throwing element
aborts the whole map. -/
def choicesMap : List Json → Option (List Json)
  | [] => some []
  | c :: cs =>
    match choiceItem c, choicesMap cs with
    | some i, some is => some (i :: is)
    | _, _ => none

/-- `transformChatChunkToResponsesChunk` (src/index.js lines 439-462):
`none` models a thrown `TypeError` — `chatChunk.choices.map` when `choices`
is not an array, a null element inside `choices`, or `chatChunk.id.replace`
when `id` is not a string.  Keys whose value would be `undefined` are
omitted, as `JSON.stringify` omits them. -/
def transformChatChunkToResponsesChunk (chatChunk : Json) : Option Json :=
  match chatChunk.getField "choices" with
  | some (.arr choices) =>
    match choicesMap choices with
    | some output =>
      match chatChunk.getField "id" with
      | some (.str id) => some (.obj (
          [("id", .str (replaceFirst id "chatcmpl-" "resp-")),
           ("object", .str "response.chunk")]
          ++ (match chatChunk.getField "created" with
              | some v => [("created", v)]
              | none => [])
          ++ (match chatChunk.getField "model" with
              | some v => [("model", v)]
              | none => [])
          ++ [("output", .arr output)]
          ++ (match chatChunk.getField "usage" with
              | some v => [("usage", v)]
              | none => [])))
      | _ => none
    | none => none
  | _ => none

/-- Processing of one complete line by stage two (src/index.js lines
357-370): same prefix and sentinel filtering as stage one, then re-decode
the chat chunk and transform it; any parse or transform failure is caught
and the record dropped. -/
def processLine2 (line : List Char) : List OutRec :=
  if startsWithData line then
    if trimChars (line.drop 6) = "[DONE]".data ∨ trimChars (line.drop 6) = [] then []
    else
      match jParse (trimChars (line.drop 6)) with
      | none => []
      | some chatChunk =>
        match transformChatChunkToResponsesChunk chatChunk with
        | none => []
        | some r => [.data r]
  else []

/-- The read loop of `handleResponsesStreaming` (src/index.js lines
344-371): identical framing to stage one, stateless line processing, and a
single sentinel of its own when the underlying byte stream ends. -/
def respLoop (buf : List Char) : List String → List OutRec
  | [] => [.done]
  | c :: cs =>
    let p := splitP (buf ++ c.data)
    (p.1.flatMap processLine2) ++ respLoop p.2 cs

/-- `handleResponsesStreaming` (src/index.js lines 335-388) as a function
from the read chunks of the stage-one response body to the emitted
records. -/
def handleResponsesStreaming (chunks : List String) : List OutRec :=
  respLoop [] chunks

/-! ### The byte level: per-read text decoding (src/index.js line 292) -/

/-- One step of the WHATWG UTF-8 decoder with replacement, as
`TextDecoder('utf-8').decode` performs it: ASCII passes through, well-formed
2-4 byte sequences (with the tightened second-byte ranges that exclude
overlong forms and surrogates) decode to their code point, and any invalid
lead byte, invalid continuation byte (which is re-examined as a new lead) or
sequence truncated by the end of the read becomes U+FFFD.  The source calls
`decoder.decode(value)` without `{stream: true}`, so every read is decoded
independently by this function. -/
def utf8DecodeLoop (fuel : Nat) (bs : List Nat) : List Char :=
  match fuel, bs with
  | 0, _ => []
  | _, [] => []
  | fuel + 1, b :: rest =>
    if b < 0x80 then Char.ofNat b :: utf8DecodeLoop fuel rest
    else if 0xC2 ≤ b ∧ b ≤ 0xDF then
      match rest with
      | b1 :: r1 =>
        if 0x80 ≤ b1 ∧ b1 ≤ 0xBF then
          Char.ofNat ((b - 0xC0) * 64 + (b1 - 0x80)) :: utf8DecodeLoop fuel r1
        else '�' :: utf8DecodeLoop fuel rest
      | [] => ['�']
    else if 0xE0 ≤ b ∧ b ≤ 0xEF then
      match rest with
      | b1 :: r1 =>
        if (if b = 0xE0 then 0xA0 else 0x80) ≤ b1 ∧ b1 ≤ (if b = 0xED then 0x9F else 0xBF) then
          match r1 with
          | b2 :: r2 =>
            if 0x80 ≤ b2 ∧ b2 ≤ 0xBF then
              Char.ofNat (((b - 0xE0) * 64 + (b1 - 0x80)) * 64 + (b2 - 0x80))
                :: utf8DecodeLoop fuel r2
            else '�' :: utf8DecodeLoop fuel r1
          | [] => ['�']
        else '�' :: utf8DecodeLoop fuel rest
      | [] => ['�']
    else if 0xF0 ≤ b ∧ b ≤ 0xF4 then
      match rest with
      | b1 :: r1 =>
        if (if b = 0xF0 then 0x90 else 0x80) ≤ b1 ∧ b1 ≤ (if b = 0xF4 then 0x8F else 0xBF) then
          match r1 with
          | b2 :: r2 =>
            if 0x80 ≤ b2 ∧ b2 ≤ 0xBF then
              match r2 with
              | b3 :: r3 =>
                if 0x80 ≤ b3 ∧ b3 ≤ 0xBF then
                  Char.ofNat ((((b - 0xF0) * 64 + (b1 - 0x80)) * 64 + (b2 - 0x80)) * 64
                      + (b3 - 0x80)) :: utf8DecodeLoop fuel r3
                else '�' :: utf8DecodeLoop fuel r2
              | [] => ['�']
            else '�' :: utf8DecodeLoop fuel r1
          | [] => ['�']
        else '�' :: utf8DecodeLoop fuel rest
      | [] => ['�']
    else '�' :: utf8DecodeLoop fuel rest

/-- `decoder.decode(value)`: the non-streaming decode of one read, which
strips a leading byte-order mark, as `TextDecoder` does by default. -/
def decodeRead (bs : List Nat) : String :=
  match bs with
  | 0xEF :: 0xBB :: 0xBF :: rest => String.mk (utf8DecodeLoop rest.length rest)
  | _ => String.mk (utf8DecodeLoop bs.length bs)

/-- `handleChatStreaming` from the byte level: every upstream read is a byte
sequence, decoded independently (src/index.js line 292) before framing. -/
def handleChatStreamingBytes (est : String → Nat) (now promptTokens : Nat)
    (reads : List (List Nat)) : List OutRec :=
  handleChatStreaming est now promptTokens (reads.map decodeRead)

/-- UTF-8 bytes of an ASCII string (used to build concrete byte inputs). -/
def asciiBytes (s : String) : List Nat :=
  s.data.map Char.toNat

/-! ### Lemmas: line framing -/

/-- The total upstream text, as the decoded concatenation of the read chunks. -/
def textOf : List String → List Char
  | [] => []
  | c :: cs => c.data ++ textOf cs

/-- How `split('\n')` of a concatenation combines the splits of the parts:
the trailing fragment of the left part merges with the first line (or the
fragment) of the right part. -/
def splitCombine (x y : List (List Char) × List Char) : List (List Char) × List Char :=
  match y with
  | ([], fb) => (x.1, x.2 ++ fb)
  | (m :: ms, fb) => (x.1 ++ (x.2 ++ m) :: ms, fb)

theorem splitP_append (a b : List Char) :
    splitP (a ++ b) = splitCombine (splitP a) (splitP b) := by
  induction a with
  | nil =>
    rcases hb : splitP b with ⟨lb, fb⟩
    cases lb <;> simp [splitP, splitCombine, hb]
  | cons c a ih =>
    rcases ha : splitP a with ⟨la, fa⟩
    rcases hb : splitP b with ⟨lb, fb⟩
    rw [ha, hb] at ih
    by_cases hc : c = '\n' <;>
      cases la <;> cases lb <;>
        simp_all [splitP, splitCombine, ha, hb, ih]

theorem splitP_of_no_newline (l : List Char) (h : '\n' ∉ l) : splitP l = ([], l) := by
  induction l with
  | nil => rfl
  | cons c cs ih =>
    have hc : ¬(c = '\n') := fun e => h (e ▸ List.mem_cons_self c cs)
    have h' : '\n' ∉ cs := fun m => h (List.mem_cons_of_mem _ m)
    simp [splitP, ih h', hc]

theorem splitP_frag_no_newline (l : List Char) : '\n' ∉ (splitP l).2 := by
  induction l with
  | nil => simp [splitP]
  | cons c cs ih =>
    rcases h : splitP cs with ⟨ls, fr⟩
    rw [h] at ih
    by_cases hc : c = '\n' <;> cases ls <;> simp_all [splitP, h]
    exact fun e => hc e.symm

/-! ### Lemmas: stage-one processing -/

theorem processLines_append (est : String → Nat) (now : Nat) (st : ChatState)
    (xs ys : List (List Char)) :
    processLines est now st (xs ++ ys) =
      ((processLines est now (processLines est now st xs).1 ys).1,
       (processLines est now st xs).2 ++ (processLines est now (processLines est now st xs).1 ys).2) := by
  induction xs generalizing st with
  | nil => simp [processLines]
  | cons l ls ih => simp [processLines, ih]

/-- Stage one as a function of the total text seen before end-of-stream:
split it once, process all complete lines, then emit the terminal chunk and
the sentinel (the residual fragment is dropped, as in the source). -/
def chatGlobal (est : String → Nat) (now promptTokens : Nat) (st : ChatState)
    (total : List Char) : List OutRec :=
  let q := processLines est now st (splitP total).1
  q.2 ++ [.data (finalChunk now promptTokens q.1.totalCompletionTokens), .done]

theorem chatLoop_eq_global (est : String → Nat) (now promptTokens : Nat) :
    ∀ (cs : List String) (st : ChatState) (buf : List Char), '\n' ∉ buf →
      chatLoop est now promptTokens st buf cs =
        chatGlobal est now promptTokens st (buf ++ textOf cs) := by
  intro cs
  induction cs with
  | nil =>
    intro st buf hbuf
    simp [chatLoop, chatGlobal, textOf, splitP_of_no_newline buf hbuf, processLines]
  | cons c cs ih =>
    intro st buf hbuf
    have hfrag := splitP_frag_no_newline (buf ++ c.data)
    rw [chatLoop, ih _ _ hfrag]
    show _ ++ chatGlobal est now promptTokens _ _ = _
    rcases ha : splitP (buf ++ c.data) with ⟨la, fa⟩
    have hfa : '\n' ∉ fa := by rw [ha] at hfrag; exact hfrag
    rcases hb : splitP (textOf cs) with ⟨lb, fb⟩
    have h1 : splitP ((buf ++ c.data) ++ textOf cs) =
        splitCombine (la, fa) (lb, fb) := by
      rw [splitP_append, ha, hb]
    have h2 : splitP (fa ++ textOf cs) = splitCombine ([], fa) (lb, fb) := by
      rw [splitP_append, splitP_of_no_newline fa hfa, hb]
    cases lb with
    | nil =>
      simp [chatGlobal, textOf, ← List.append_assoc, h1, h2, splitCombine, ha, processLines]
    | cons m ms =>
      simp [chatGlobal, textOf, ← List.append_assoc, h1, h2, splitCombine, ha,
        processLines_append]

theorem processLine_shape (est : String → Nat) (now : Nat) (st : ChatState) (l : List Char) :
    ∀ r ∈ (processLine est now st l).2, ∃ p, r = OutRec.data (transformStreamChunk p now) := by
  intro r hr
  unfold processLine at hr
  split at hr
  · split at hr
    · simp at hr
    · split at hr
      · simp at hr
      · simp at hr
      · simp at hr
        exact ⟨_, hr⟩
  · simp at hr

theorem processLines_shape (est : String → Nat) (now : Nat) (st : ChatState)
    (ls : List (List Char)) :
    ∀ r ∈ (processLines est now st ls).2, ∃ p, r = OutRec.data (transformStreamChunk p now) := by
  induction ls generalizing st with
  | nil => simp [processLines]
  | cons l ls ih =>
    intro r hr
    simp only [processLines, List.mem_append] at hr
    rcases hr with h | h
    · exact processLine_shape est now st l r h
    · exact ih _ r h

theorem wireOf_obj_ne_sentinel (ms : List (String × Json)) :
    wireOf (OutRec.data (Json.obj ms)) ≠ "data: [DONE]\n\n" := by
  intro h
  have h2 : ("data: " ++ String.mk (jStr (Json.obj ms)) ++ "\n\n").data
      = "data: [DONE]\n\n".data := congrArg String.data h
  rw [String.data_append, String.data_append] at h2
  have h3 := congrArg (fun l : List Char => l.take 7) h2
  have h4 : (['d', 'a', 't', 'a', ':', ' ', '\x7b'] : List Char)
      = ['d', 'a', 't', 'a', ':', ' ', '['] := h3
  exact absurd h4 (by decide)

theorem handleChatStreaming_eq_global (est : String → Nat) (now promptTokens : Nat)
    (chunks : List String) :
    handleChatStreaming est now promptTokens chunks =
      chatGlobal est now promptTokens initChatState (textOf chunks) := by
  unfold handleChatStreaming
  rw [chatLoop_eq_global est now promptTokens chunks initChatState [] (by simp)]
  simp

/-- C1: when the upstream read signals end-of-input, the chat-stream output is
the per-event records followed by exactly one terminal chunk — whose `delta`
is the empty object, whose `finish_reason` is `"stop"`, and whose usage
carries the caller-supplied prompt-token count, the final accumulator value
as completion tokens and their sum as total tokens — immediately followed by
exactly one sentinel record; every earlier record is a per-event chunk, and
no other sentinel appears on the wire no matter how many sentinel or blank
records the upstream sent (including an upstream that closes with no data). -/
theorem chat_terminal_chunk_and_sentinel_unique (est : String → Nat)
    (now promptTokens : Nat) (chunks : List String) :
    handleChatStreaming est now promptTokens chunks =
        (processLines est now initChatState (splitP (textOf chunks)).1).2
          ++ [OutRec.data (finalChunk now promptTokens
                (processLines est now initChatState (splitP (textOf chunks)).1).1.totalCompletionTokens),
              OutRec.done]
    ∧ (∀ r ∈ (processLines est now initChatState (splitP (textOf chunks)).1).2,
        ∃ p, r = OutRec.data (transformStreamChunk p now))
    ∧ (∀ pt tot, (finalChunk now pt tot).getField "choices"
        = some (.arr [.obj [("index", .num 0), ("delta", .obj []),
                            ("logprobs", .null), ("finish_reason", .str "stop")]]))
    ∧ (∀ pt tot, (finalChunk now pt tot).getField "usage"
        = some (.obj [("prompt_tokens", .num pt), ("completion_tokens", .num tot),
                      ("total_tokens", .num (pt + tot))]))
    ∧ ((handleChatStreaming est now promptTokens chunks).map wireOf).count "data: [DONE]\n\n" = 1 := by
  refine ⟨?_, processLines_shape est now initChatState _, fun pt tot => rfl, fun pt tot => rfl, ?_⟩
  · rw [handleChatStreaming_eq_global]
    rfl
  · rw [handleChatStreaming_eq_global]
    show (List.map wireOf (_ ++ [OutRec.data (finalChunk now promptTokens _), OutRec.done])).count _ = 1
    rw [List.map_append, List.count_append]
    have hbody : ((processLines est now initChatState (splitP (textOf chunks)).1).2.map wireOf).count
        "data: [DONE]\n\n" = 0 := by
      rw [List.count_eq_zero]
      intro hmem
      rcases List.mem_map.mp hmem with ⟨r, hr, hwr⟩
      rcases processLines_shape est now initChatState _ r hr with ⟨p, rfl⟩
      exact wireOf_obj_ne_sentinel _ hwr
    rw [hbody]
    have hfc : wireOf (OutRec.data (finalChunk now promptTokens
        (processLines est now initChatState (splitP (textOf chunks)).1).1.totalCompletionTokens))
        ≠ "data: [DONE]\n\n" := wireOf_obj_ne_sentinel _
    simp only [List.map_cons, List.map_nil, List.count_cons]
    simp [wireOf]
    exact hfc

/-- Helper: at the decoded-text level, the framing and decoding of the
upstream stream is invariant under re-chunking — two read-chunk sequences
carrying the same total decoded text produce the same emitted records. -/
theorem chat_framing_invariance (est : String → Nat) (now promptTokens : Nat)
    (cs ds : List String) (h : textOf cs = textOf ds) :
    handleChatStreaming est now promptTokens cs = handleChatStreaming est now promptTokens ds := by
  rw [handleChatStreaming_eq_global, handleChatStreaming_eq_global, h]

/-- C2 (amended): for a fixed total upstream byte sequence, the emitted
records are identical across any two splittings into reads whose per-read
decodings (the source decodes every read independently with a non-streaming
`TextDecoder`, src/index.js line 292) concatenate to the same total text —
which holds exactly for the splits falling on character boundaries.  A split
inside a multi-byte UTF-8 character falls outside this: the counterexample
shows it yields replacement characters and different records. -/
theorem chat_framing_invariance_bytes (est : String → Nat) (now promptTokens : Nat)
    (rs ds : List (List Nat))
    (h : textOf (rs.map decodeRead) = textOf (ds.map decodeRead)) :
    handleChatStreamingBytes est now promptTokens rs
      = handleChatStreamingBytes est now promptTokens ds :=
  chat_framing_invariance est now promptTokens _ _ h

/-- Witness for C2 (amended), on the spec's split-record scenario: an ASCII
(hence character-aligned) two-read byte chunking produces the same output as
the whole byte sequence in one read. -/
theorem chat_framing_invariance_bytes_witness :
    textOf (([asciiBytes "data: \x7b\"respo",
        asciiBytes "nse\":\"Hel\"\x7d\n\ndata: \x7b\"response\":\"lo\"\x7d\n\n"]).map decodeRead)
      = textOf (([asciiBytes
          ("data: \x7b\"respo" ++ "nse\":\"Hel\"\x7d\n\ndata: \x7b\"response\":\"lo\"\x7d\n\n")]).map
            decodeRead)
    ∧ handleChatStreamingBytes String.length 77 9
          [asciiBytes "data: \x7b\"respo",
           asciiBytes "nse\":\"Hel\"\x7d\n\ndata: \x7b\"response\":\"lo\"\x7d\n\n"]
        = handleChatStreamingBytes String.length 77 9
          [asciiBytes ("data: \x7b\"respo" ++ "nse\":\"Hel\"\x7d\n\ndata: \x7b\"response\":\"lo\"\x7d\n\n")] :=
  ⟨rfl, chat_framing_invariance_bytes String.length 77 9 _ _ rfl⟩

set_option maxRecDepth 400000 in
/-- Counterexample to C2 as stated: one total upstream byte sequence, two
splittings into reads — whole, versus split between the two bytes 0xC3 0xA9
of a multi-byte character inside the payload.  Because every read is decoded
independently without streaming state, the split reads decode to two U+FFFD
replacement characters, and the two chunkings produce different records. -/
theorem chat_framing_invariance_cex :
    (asciiBytes "data: \x7b\"response\":\"" ++ [0xC3]) ++ ([0xA9] ++ asciiBytes "\"\x7d\n\n")
        = asciiBytes "data: \x7b\"response\":\"" ++ [0xC3, 0xA9] ++ asciiBytes "\"\x7d\n\n"
    ∧ ((handleChatStreamingBytes String.length 0 0
          [asciiBytes "data: \x7b\"response\":\"" ++ [0xC3, 0xA9] ++ asciiBytes "\"\x7d\n\n"]).map wireOf)
        ≠ ((handleChatStreamingBytes String.length 0 0
          [asciiBytes "data: \x7b\"response\":\"" ++ [0xC3],
           [0xA9] ++ asciiBytes "\"\x7d\n\n"]).map wireOf) := by
  refine ⟨by decide, by decide⟩

/-- C3: a record whose payload fails JSON decoding is skipped without
aborting the stream — processing any line run with the malformed record
removed yields the identical state and the identical emitted records, so
every valid record before and after it still produces exactly its delta. -/
theorem malformed_record_skipped (est : String → Nat) (now : Nat) (st : ChatState)
    (pre post : List (List Char)) (bad : List Char)
    (h1 : startsWithData bad = true)
    (h2 : trimChars (bad.drop 6) ≠ "[DONE]".data)
    (h3 : trimChars (bad.drop 6) ≠ [])
    (h4 : jParse (trimChars (bad.drop 6)) = none) :
    processLines est now st (pre ++ bad :: post) = processLines est now st (pre ++ post) := by
  have hb : ∀ st' : ChatState, processLine est now st' bad = (st', []) := by
    intro st'
    unfold processLine
    rw [if_pos h1, if_neg (by simp [h2, h3]), h4]
  induction pre generalizing st with
  | nil => simp [processLines, hb]
  | cons l ls ih => simp [processLines, ih]

/-- Witness for C3, on the spec's scenario 2: `data: {not json}` between two
valid records is dropped and the surrounding records process as if it were
never sent. -/
theorem malformed_record_skipped_witness :
    jParse (trimChars (("data: \x7bnot json\x7d".data).drop 6)) = none
    ∧ processLines String.length 0 initChatState
        ["data: \x7b\"response\":\"Hel\"\x7d".data, "data: \x7bnot json\x7d".data,
         "data: \x7b\"response\":\"lo\"\x7d".data]
      = processLines String.length 0 initChatState
        ["data: \x7b\"response\":\"Hel\"\x7d".data, "data: \x7b\"response\":\"lo\"\x7d".data] :=
  ⟨rfl, malformed_record_skipped String.length 0 initChatState
      ["data: \x7b\"response\":\"Hel\"\x7d".data] ["data: \x7b\"response\":\"lo\"\x7d".data]
      ("data: \x7bnot json\x7d".data) rfl (by decide) (by decide) rfl⟩

/-! ### Lemmas: token-estimate monotonicity -/

/-- Invariant tying the running total to the accumulated text: the stored
estimate never exceeds the estimate of any extension of the accumulated
text. -/
def chatInv (est : String → Nat) (st : ChatState) : Prop :=
  ∀ t, st.totalCompletionTokens ≤ est (st.completeResponse ++ t)

theorem processLine_mono (est : String → Nat) (now : Nat) (st : ChatState) (l : List Char)
    (hmono : ∀ s t, est s ≤ est (s ++ t)) (hinv : chatInv est st) :
    chatInv est (processLine est now st l).1
      ∧ st.totalCompletionTokens ≤ (processLine est now st l).1.totalCompletionTokens := by
  unfold processLine
  split
  · split
    · exact ⟨hinv, le_refl _⟩
    · split
      · exact ⟨hinv, le_refl _⟩
      · exact ⟨hinv, le_refl _⟩
      · split
        · refine ⟨fun t => ?_, hinv _⟩
          simpa [String.append_assoc] using
            hmono (st.completeResponse ++ jsToString (rawContent _)) t
        · exact ⟨hinv, le_refl _⟩
  · exact ⟨hinv, le_refl _⟩

theorem processLines_mono (est : String → Nat) (now : Nat) (st : ChatState)
    (ls : List (List Char)) (hmono : ∀ s t, est s ≤ est (s ++ t)) (hinv : chatInv est st) :
    chatInv est (processLines est now st ls).1
      ∧ st.totalCompletionTokens ≤ (processLines est now st ls).1.totalCompletionTokens := by
  induction ls generalizing st with
  | nil => exact ⟨hinv, le_refl _⟩
  | cons l ls ih =>
    have h1 := processLine_mono est now st l hmono hinv
    have h2 := ih (processLine est now st l).1 h1.1
    exact ⟨h2.1, le_trans h1.2 h2.2⟩

/-- C4 (amended): under the hypothesis that the external token estimator is
monotone with respect to appending text — not mere purity, which the
counterexample shows is insufficient — the completion-token estimate in
force after any prefix of the processed lines never exceeds the estimate
after all of them, and the terminal chunk of the stream carries that final
estimate in its usage. -/
theorem completion_estimate_monotone (est : String → Nat)
    (hmono : ∀ s t, est s ≤ est (s ++ t)) (now promptTokens : Nat)
    (chunks : List String) (l1 l2 : List (List Char))
    (hsplit : (splitP (textOf chunks)).1 = l1 ++ l2) :
    (processLines est now initChatState l1).1.totalCompletionTokens
      ≤ (processLines est now initChatState (l1 ++ l2)).1.totalCompletionTokens
    ∧ handleChatStreaming est now promptTokens chunks =
        (processLines est now initChatState (l1 ++ l2)).2
          ++ [OutRec.data (finalChunk now promptTokens
                (processLines est now initChatState (l1 ++ l2)).1.totalCompletionTokens),
              OutRec.done] := by
  constructor
  · rw [processLines_append]
    have hinv : chatInv est initChatState := fun t => Nat.zero_le _
    have h1 := processLines_mono est now initChatState l1 hmono hinv
    exact (processLines_mono est now _ l2 hmono h1.1).2
  · rw [handleChatStreaming_eq_global, chatGlobal, hsplit]

/-- Witness for C4 (amended) at a concrete monotone estimator
(`String.length`) and the spec's scenario-1 stream, split after its first
line. -/
theorem completion_estimate_monotone_witness :
    (splitP (textOf ["data: \x7b\"response\":\"Hel\"\x7d\n\ndata: \x7b\"response\":\"lo\"\x7d\n\n"])).1
        = ["data: \x7b\"response\":\"Hel\"\x7d".data] ++ ["".data, "data: \x7b\"response\":\"lo\"\x7d".data, "".data]
    ∧ ((processLines String.length 77 initChatState ["data: \x7b\"response\":\"Hel\"\x7d".data]).1.totalCompletionTokens
      ≤ (processLines String.length 77 initChatState
          (["data: \x7b\"response\":\"Hel\"\x7d".data]
            ++ ["".data, "data: \x7b\"response\":\"lo\"\x7d".data, "".data])).1.totalCompletionTokens
    ∧ handleChatStreaming String.length 77 9
          ["data: \x7b\"response\":\"Hel\"\x7d\n\ndata: \x7b\"response\":\"lo\"\x7d\n\n"] =
        (processLines String.length 77 initChatState
          (["data: \x7b\"response\":\"Hel\"\x7d".data]
            ++ ["".data, "data: \x7b\"response\":\"lo\"\x7d".data, "".data])).2
          ++ [OutRec.data (finalChunk 77 9
                (processLines String.length 77 initChatState
                  (["data: \x7b\"response\":\"Hel\"\x7d".data]
                    ++ ["".data, "data: \x7b\"response\":\"lo\"\x7d".data, "".data])).1.totalCompletionTokens),
              OutRec.done]) :=
  ⟨rfl, completion_estimate_monotone String.length
      (fun s t => by simp [String.length_append])
      77 9 _ _ _ rfl⟩

/-- Counterexample to C4 as stated: with an estimator that is a pure
function of the accumulated text but not monotone under extension, the
estimate in force after one record exceeds the final value, so purity alone
does not give the claimed monotonicity. -/
theorem completion_estimate_monotone_cex :
    ¬ ((processLines (fun s => if s.length ≤ 3 then 10 else s.length) 0 initChatState
          ["data: \x7b\"response\":\"abc\"\x7d".data]).1.totalCompletionTokens
        ≤ (processLines (fun s => if s.length ≤ 3 then 10 else s.length) 0 initChatState
          (["data: \x7b\"response\":\"abc\"\x7d".data]
            ++ ["data: \x7b\"response\":\"def\"\x7d".data])).1.totalCompletionTokens) := by
  decide

/-- C6: evaluation of the code at the failing input — a complete `data:`
payload that arrives without its trailing newline and is followed by
end-of-stream is silently discarded: the output carries no delta for it,
only the terminal chunk (with zero completion tokens) and the sentinel. -/
theorem leftover_buffer_dropped :
    handleChatStreaming String.length 0 3 ["data: \x7b\"response\":\"Hi\"\x7d"]
      = [OutRec.data (finalChunk 0 3 0), OutRec.done] := by
  rfl

/-- Counterexample to C7 as stated: a payload whose first recognized field
(`response`) is present but holds the empty string does not yield that
field's value — the code's `||` skips the falsy value and consults `text`. -/
theorem content_first_present_field_cex :
    (Json.obj [("response", .str ""), ("text", .str "x")]).getField "response" = some (.str "")
    ∧ rawContent (Json.obj [("response", .str ""), ("text", .str "x")]) ≠ .str "" := by
  refine ⟨rfl, fun h => ?_⟩
  exact absurd (Json.str.inj h) (by decide)

/-- C7 (amended): the VendorEvent content is the first JavaScript-truthy of
the two recognized fields (`response`, then `text`), and the empty string
when both are absent or falsy; a present-but-falsy `response` is skipped in
favour of `text`.  The per-event chunk's `delta.content` carries exactly
this value. -/
theorem content_field_selection (p : Json) :
    (∀ v, p.getField "response" = some v → v.truthy = true → rawContent p = v)
    ∧ (p.getField "response" = none → ∀ w, p.getField "text" = some w → w.truthy = true →
        rawContent p = w)
    ∧ (∀ v w, p.getField "response" = some v → v.truthy = false →
        p.getField "text" = some w → w.truthy = true → rawContent p = w)
    ∧ (∀ v w, p.getField "response" = some v → v.truthy = false →
        p.getField "text" = some w → w.truthy = false → rawContent p = .str "")
    ∧ (p.getField "response" = none → p.getField "text" = none → rawContent p = .str "")
    ∧ (∀ v, p.getField "response" = some v → v.truthy = false → p.getField "text" = none →
        rawContent p = .str "")
    ∧ (∀ w, p.getField "response" = none → p.getField "text" = some w → w.truthy = false →
        rawContent p = .str "")
    ∧ (∀ now, (transformStreamChunk p now).getField "choices"
        = some (.arr [.obj [("index", .num 0), ("delta", .obj [("content", rawContent p)]),
                            ("logprobs", .null), ("finish_reason", .null)]])) := by
  refine ⟨?_, ?_, ?_, ?_, ?_, ?_, ?_, fun now => rfl⟩
  · intro v hv htr
    simp [rawContent, jsOrElse, hv, htr]
  · intro hr w hw htr
    simp [rawContent, jsOrElse, hr, hw, htr]
  · intro v w hv hvf hw htr
    simp [rawContent, jsOrElse, hv, hvf, hw, htr]
  · intro v w hv hvf hw hwf
    simp [rawContent, jsOrElse, hv, hvf, hw, hwf]
  · intro hr ht
    simp [rawContent, jsOrElse, hr, ht]
  · intro v hv hvf ht
    simp [rawContent, jsOrElse, hv, hvf, ht]
  · intro w hr hw hwf
    simp [rawContent, jsOrElse, hr, hw, hwf]

/-- Witness for C7 (amended): concrete instances of the selection — a truthy
`response` wins, a falsy `response` defers to `text`. -/
theorem content_field_selection_witness :
    rawContent (Json.obj [("response", .str "hi")]) = .str "hi"
    ∧ rawContent (Json.obj [("response", .str ""), ("text", .str "x")]) = .str "x" :=
  ⟨(content_field_selection (Json.obj [("response", .str "hi")])).1 (.str "hi") rfl rfl,
   (content_field_selection (Json.obj [("response", .str ""), ("text", .str "x")])).2.2.1
      (.str "") (.str "x") rfl rfl rfl rfl⟩

/-- Counterexample to C9 as stated: an upstream event whose `model` field is
present but falsy (the empty string) does not propagate that value — the
chunk falls back to the default even though the field is present. -/
theorem model_field_cex :
    (Json.obj [("model", .str ""), ("response", .str "hi")]).getField "model" = some (.str "")
    ∧ (transformStreamChunk (Json.obj [("model", .str ""), ("response", .str "hi")]) 0).getField "model"
        = some (.str "gpt-3.5-turbo")
    ∧ Json.str "" ≠ Json.str "gpt-3.5-turbo" :=
  ⟨rfl, rfl, fun h => absurd (Json.str.inj h) (by decide)⟩

/-- C9 (amended): the synthesized terminal chunk always carries the literal
model string `gpt-3.5-turbo` regardless of upstream metadata, while a
per-event chunk carries the event's own `model` value when it is present and
truthy, and the default when it is absent or falsy. -/
theorem model_selection (p : Json) (now promptTokens tot : Nat) :
    ((finalChunk now promptTokens tot).getField "model" = some (.str "gpt-3.5-turbo"))
    ∧ (∀ v, p.getField "model" = some v → v.truthy = true →
        (transformStreamChunk p now).getField "model" = some v)
    ∧ (∀ v, p.getField "model" = some v → v.truthy = false →
        (transformStreamChunk p now).getField "model" = some (.str "gpt-3.5-turbo"))
    ∧ (p.getField "model" = none →
        (transformStreamChunk p now).getField "model" = some (.str "gpt-3.5-turbo")) := by
  have hm : ∀ q : Json, (transformStreamChunk q now).getField "model"
      = some (jsOrElse (q.getField "model") (.str "gpt-3.5-turbo")) := fun q => rfl
  refine ⟨rfl, ?_, ?_, ?_⟩
  · intro v hv htr
    rw [hm, hv]
    simp [jsOrElse, htr]
  · intro v hv hvf
    rw [hm, hv]
    simp [jsOrElse, hvf]
  · intro hnone
    rw [hm, hnone]
    rfl

/-- Witness for C9 (amended): a truthy model value propagates, the terminal
chunk stays on the default. -/
theorem model_selection_witness :
    ((finalChunk 5 1 2).getField "model" = some (.str "gpt-3.5-turbo"))
    ∧ (transformStreamChunk (Json.obj [("model", .str "mistral")]) 5).getField "model"
        = some (.str "mistral") :=
  ⟨(model_selection (Json.obj [("model", .str "mistral")]) 5 1 2).1,
   (model_selection (Json.obj [("model", .str "mistral")]) 5 1 2).2.1 (.str "mistral") rfl rfl⟩

/-- C10: in the response-chunk stage, a record whose decoded chunk makes the
transform throw (any exception, not only decode failure — e.g. a missing or
non-array `choices`) is caught and dropped, and the stream continues:
processing the line run with the throwing record removed yields identical
output, so every other record's ResponseChunk is emitted unchanged. -/
theorem responses_transform_failure_dropped
    (pre post : List (List Char)) (bad : List Char) (c : Json)
    (h1 : startsWithData bad = true)
    (h2 : trimChars (bad.drop 6) ≠ "[DONE]".data)
    (h3 : trimChars (bad.drop 6) ≠ [])
    (h4 : jParse (trimChars (bad.drop 6)) = some c)
    (h5 : transformChatChunkToResponsesChunk c = none) :
    (pre ++ bad :: post).flatMap processLine2 = (pre ++ post).flatMap processLine2 := by
  have hb : processLine2 bad = [] := by
    unfold processLine2
    rw [if_pos h1, if_neg (by simp [h2, h3]), h4]
    simp [h5]
  simp [hb]

/-- Witness for C10: a decodable chunk without a `choices` list (so that
`chatChunk.choices.map` throws) between two valid chunk records is dropped
and the remaining records transform as without it. -/
theorem responses_transform_failure_dropped_witness :
    transformChatChunkToResponsesChunk (Json.obj [("id", Json.str "x")]) = none
    ∧ (["data: \x7b\"id\":\"chatcmpl-1\",\"choices\":[\x7b\"index\":0\x7d]\x7d".data,
        "data: \x7b\"id\":\"x\"\x7d".data,
        "data: \x7b\"id\":\"chatcmpl-2\",\"choices\":[]\x7d".data].flatMap processLine2
      = (["data: \x7b\"id\":\"chatcmpl-1\",\"choices\":[\x7b\"index\":0\x7d]\x7d".data,
          "data: \x7b\"id\":\"chatcmpl-2\",\"choices\":[]\x7d".data]).flatMap processLine2) :=
  ⟨rfl, responses_transform_failure_dropped
      ["data: \x7b\"id\":\"chatcmpl-1\",\"choices\":[\x7b\"index\":0\x7d]\x7d".data]
      ["data: \x7b\"id\":\"chatcmpl-2\",\"choices\":[]\x7d".data]
      ("data: \x7b\"id\":\"x\"\x7d".data) (Json.obj [("id", Json.str "x")])
      rfl (by decide) (by decide) rfl rfl⟩

/-! ### Lemmas: the stringifier never emits a raw newline -/

theorem digitChar_ne_nl (d : Nat) (h : d < 10) : digitChar d ≠ '\n' := by
  interval_cases d <;> decide

theorem hexChar_ne_nl (d : Nat) (h : d < 16) : hexChar d ≠ '\n' := by
  interval_cases d <;> decide

theorem natChars_no_nl (fuel n : Nat) : '\n' ∉ natChars fuel n := by
  induction fuel generalizing n with
  | zero => simp [natChars]
  | succ f ih =>
    by_cases h : n < 10
    · simp only [natChars, if_pos h, List.mem_singleton]
      exact fun e => digitChar_ne_nl n h e.symm
    · simp only [natChars, if_neg h, List.mem_append, List.mem_singleton]
      rintro (h' | h')
      · exact ih (n / 10) h'
      · exact digitChar_ne_nl (n % 10) (Nat.mod_lt _ (by norm_num)) h'.symm

theorem intStr_no_nl (n : Int) : '\n' ∉ intStr n := by
  unfold intStr
  split
  · intro h
    rcases List.mem_cons.mp h with h' | h'
    · exact absurd h' (by decide)
    · exact natChars_no_nl _ _ h'
  · exact natChars_no_nl _ _

theorem escChar_no_nl (c : Char) : '\n' ∉ escChar c := by
  unfold escChar
  split_ifs with h1 h2 h3 h4 h5 h6 h7 h8
  · decide
  · decide
  · decide
  · decide
  · decide
  · decide
  · decide
  · intro h
    simp only [List.mem_cons, List.not_mem_nil, or_false] at h
    rcases h with h | h | h | h | h | h
    · exact absurd h (by decide)
    · exact absurd h (by decide)
    · exact absurd h (by decide)
    · exact absurd h (by decide)
    · exact hexChar_ne_nl (c.toNat / 16) (by omega) h.symm
    · exact hexChar_ne_nl (c.toNat % 16) (by omega) h.symm
  · intro h
    exact h3 (List.mem_singleton.mp h).symm

theorem strLit_no_nl (s : String) : '\n' ∉ strLit s := by
  intro h
  rcases List.mem_cons.mp h with h' | h'
  · exact absurd h' (by decide)
  · rcases List.mem_append.mp h' with h'' | h''
    · rcases List.mem_flatMap.mp h'' with ⟨a, _, ha⟩
      exact escChar_no_nl a ha
    · exact absurd (List.mem_singleton.mp h'') (by decide)

theorem jStr_no_nl_aux (n : Nat) :
    (∀ v : Json, sizeOf v ≤ n → '\n' ∉ jStr v)
    ∧ (∀ xs : List Json, sizeOf xs ≤ n → '\n' ∉ jStrElems xs)
    ∧ (∀ ms : List (String × Json), sizeOf ms ≤ n → '\n' ∉ jStrMembers ms) := by
  induction n using Nat.strong_induction_on with
  | _ n ih =>
    refine ⟨?_, ?_, ?_⟩
    · intro v hv
      cases v with
      | null => intro h; exact absurd h (by decide)
      | bool b => cases b <;> (intro h; exact absurd h (by decide))
      | num m => exact intStr_no_nl m
      | str s => exact strLit_no_nl s
      | arr xs =>
        intro h
        have hsz : sizeOf xs < n := by simp at hv; omega
        rcases List.mem_cons.mp h with h' | h'
        · exact absurd h' (by decide)
        · rcases List.mem_append.mp h' with h'' | h''
          · exact ((ih _ hsz).2.1 xs le_rfl) h''
          · exact absurd (List.mem_singleton.mp h'') (by decide)
      | obj ms =>
        intro h
        have hsz : sizeOf ms < n := by simp at hv; omega
        rcases List.mem_cons.mp h with h' | h'
        · exact absurd h' (by decide)
        · rcases List.mem_append.mp h' with h'' | h''
          · exact ((ih _ hsz).2.2 ms le_rfl) h''
          · exact absurd (List.mem_singleton.mp h'') (by decide)
    · intro xs hxs
      match xs with
      | [] => simp [jStrElems]
      | [x] =>
        have hsz : sizeOf x < n := by simp at hxs; omega
        exact (ih _ hsz).1 x le_rfl
      | x :: y :: zs =>
        intro h
        have hx : sizeOf x < n := by simp at hxs; omega
        have hyz : sizeOf (y :: zs) < n := by simp at hxs ⊢; omega
        rcases List.mem_append.mp h with h' | h'
        · exact ((ih _ hx).1 x le_rfl) h'
        · rcases List.mem_cons.mp h' with h'' | h''
          · exact absurd h'' (by decide)
          · exact ((ih _ hyz).2.1 _ le_rfl) h''
    · intro ms hms
      match ms with
      | [] => simp [jStrMembers]
      | [(k, v)] =>
        intro h
        have hsz : sizeOf v < n := by simp at hms; omega
        rcases List.mem_append.mp h with h' | h'
        · exact strLit_no_nl k h'
        · rcases List.mem_cons.mp h' with h'' | h''
          · exact absurd h'' (by decide)
          · exact ((ih _ hsz).1 v le_rfl) h''
      | (k, v) :: m :: mss =>
        intro h
        have hv : sizeOf v < n := by simp at hms; omega
        have hm : sizeOf (m :: mss) < n := by simp at hms ⊢; omega
        rcases List.mem_append.mp h with h' | h'
        · rcases List.mem_append.mp h' with h1 | h1
          · exact strLit_no_nl k h1
          · rcases List.mem_cons.mp h1 with h2 | h2
            · exact absurd h2 (by decide)
            · exact ((ih _ hv).1 v le_rfl) h2
        · rcases List.mem_cons.mp h' with h2 | h2
          · exact absurd h2 (by decide)
          · exact ((ih _ hm).2.2 _ le_rfl) h2

theorem jStr_no_nl (v : Json) : '\n' ∉ jStr v :=
  (jStr_no_nl_aux (sizeOf v)).1 v le_rfl

/-! ### Lemmas: stage-two composition -/

theorem trimChars_sandwich (a b : Char) (m : List Char)
    (ha : isTrimWs a = false) (hb : isTrimWs b = false) :
    trimChars (a :: (m ++ [b])) = a :: (m ++ [b]) := by
  unfold trimChars
  rw [List.dropWhile_cons, if_neg (by simp [ha])]
  have hrev : (a :: (m ++ [b])).reverse = b :: (m.reverse ++ [a]) := by simp
  rw [hrev, List.dropWhile_cons, if_neg (by simp [hb])]
  simp

theorem replaceFirstChars_head_match (pat repl s : List Char) (hne : pat ≠ []) :
    replaceFirstChars pat repl (pat ++ s) = repl ++ s := by
  cases pat with
  | nil => exact absurd rfl hne
  | cons c cs =>
    rw [List.cons_append, replaceFirstChars]
    have hpre : (c :: cs).isPrefixOf (c :: (cs ++ s)) = true := by
      rw [List.isPrefixOf_iff_prefix, ← List.cons_append]
      exact List.prefix_append _ s
    rw [if_pos hpre]
    congr 1
    rw [← List.cons_append]
    exact List.drop_left _ _

theorem replaceFirst_chatcmpl (now : Nat) :
    replaceFirst (String.mk ("chatcmpl-".data ++ natStr now)) "chatcmpl-" "resp-"
      = String.mk ("resp-".data ++ natStr now) := by
  unfold replaceFirst
  rw [show (String.mk ("chatcmpl-".data ++ natStr now)).data = "chatcmpl-".data ++ natStr now from rfl]
  rw [show ("chatcmpl-" : String).data = "chatcmpl-".data from rfl]
  rw [replaceFirstChars_head_match _ _ _ (by decide)]

/-- The ResponseChunk produced by stage two from a per-event chat chunk. -/
def respChunkOfEvent (p : Json) (now : Nat) : Json :=
  .obj [("id", .str (String.mk ("resp-".data ++ natStr now))),
        ("object", .str "response.chunk"),
        ("created", .num (now / 1000)),
        ("model", jsOrElse (p.getField "model") (.str "gpt-3.5-turbo")),
        ("output", .arr [.obj [("index", .num 0),
                               ("object", .str "response.chunk.delta"),
                               ("delta", rawContent p)]])]

/-- The ResponseChunk produced by stage two from the terminal chat chunk. -/
def respChunkOfFinal (now promptTokens tot : Nat) : Json :=
  .obj [("id", .str (String.mk ("resp-".data ++ natStr now))),
        ("object", .str "response.chunk"),
        ("created", .num (now / 1000)),
        ("model", .str "gpt-3.5-turbo"),
        ("output", .arr [.obj [("index", .num 0),
                               ("object", .str "response.chunk.delta"),
                               ("finish_reason", .str "stop")]]),
        ("usage", createUsageObject promptTokens tot)]

theorem tcc_event (p : Json) (now : Nat) :
    transformChatChunkToResponsesChunk (transformStreamChunk p now)
      = some (respChunkOfEvent p now) := by
  have h : transformChatChunkToResponsesChunk (transformStreamChunk p now)
      = some (.obj [("id", .str (replaceFirst (String.mk ("chatcmpl-".data ++ natStr now))
                      "chatcmpl-" "resp-")),
                    ("object", .str "response.chunk"),
                    ("created", .num (now / 1000)),
                    ("model", jsOrElse (p.getField "model") (.str "gpt-3.5-turbo")),
                    ("output", .arr [.obj [("index", .num 0),
                                           ("object", .str "response.chunk.delta"),
                                           ("delta", rawContent p)]])]) := rfl
  rw [h, replaceFirst_chatcmpl]
  rfl

theorem tcc_final (now promptTokens tot : Nat) :
    transformChatChunkToResponsesChunk (finalChunk now promptTokens tot)
      = some (respChunkOfFinal now promptTokens tot) := by
  have h : transformChatChunkToResponsesChunk (finalChunk now promptTokens tot)
      = some (.obj [("id", .str (replaceFirst (String.mk ("chatcmpl-".data ++ natStr now))
                      "chatcmpl-" "resp-")),
                    ("object", .str "response.chunk"),
                    ("created", .num (now / 1000)),
                    ("model", .str "gpt-3.5-turbo"),
                    ("output", .arr [.obj [("index", .num 0),
                                           ("object", .str "response.chunk.delta"),
                                           ("finish_reason", .str "stop")]]),
                    ("usage", createUsageObject promptTokens tot)]) := rfl
  rw [h, replaceFirst_chatcmpl]
  rfl

/-- The records stage two derives from one stage-one wire record: nothing for
the absorbed sentinel, and the transformed chunk (when the transform does not
throw) for a data record. -/
def s2step : OutRec → List OutRec
  | .done => []
  | .data v =>
    match transformChatChunkToResponsesChunk v with
    | none => []
    | some r => [.data r]

theorem respLoop_cons_done (ws : List String) :
    respLoop [] (wireOf OutRec.done :: ws) = respLoop [] ws := by
  rw [respLoop]
  rfl

theorem processLine2_wire_data (ms : List (String × Json))
    (hrt : jParse (jStr (Json.obj ms)) = some (Json.obj ms)) :
    processLine2 ("data: ".data ++ jStr (Json.obj ms))
      = s2step (OutRec.data (Json.obj ms)) := by
  unfold processLine2
  have hsw : startsWithData ("data: ".data ++ jStr (Json.obj ms)) = true := by
    simp [startsWithData]
  rw [if_pos hsw]
  have hdrop : ("data: ".data ++ jStr (Json.obj ms)).drop 6 = jStr (Json.obj ms) := by
    simp
  rw [hdrop]
  have htr : trimChars (jStr (Json.obj ms)) = jStr (Json.obj ms) := by
    show trimChars ('\x7b' :: (jStrMembers ms ++ ['\x7d'])) = _
    exact trimChars_sandwich _ _ _ (by decide) (by decide)
  rw [htr]
  have hne1 : jStr (Json.obj ms) ≠ "[DONE]".data := by
    show '\x7b' :: (jStrMembers ms ++ ['\x7d']) ≠ _
    intro h
    injection h with h1 _
    exact absurd h1 (by decide)
  have hne2 : jStr (Json.obj ms) ≠ [] := by
    show '\x7b' :: (jStrMembers ms ++ ['\x7d']) ≠ []
    simp
  rw [if_neg (by simp [hne1, hne2]), hrt]
  rfl

theorem respLoop_cons_data (ms : List (String × Json)) (ws : List String)
    (hrt : jParse (jStr (Json.obj ms)) = some (Json.obj ms)) :
    respLoop [] (wireOf (OutRec.data (Json.obj ms)) :: ws)
      = s2step (OutRec.data (Json.obj ms)) ++ respLoop [] ws := by
  have hnl : '\n' ∉ "data: ".data ++ jStr (Json.obj ms) := by
    intro h
    rcases List.mem_append.mp h with h' | h'
    · exact absurd h' (by decide)
    · exact jStr_no_nl _ h'
  have hsp : splitP (("data: ".data ++ jStr (Json.obj ms)) ++ "\n\n".data)
      = ([("data: ".data ++ jStr (Json.obj ms)), []], []) := by
    rw [splitP_append, splitP_of_no_newline _ hnl]
    rw [show splitP ("\n\n".data) = ([[], []], []) from rfl]
    simp [splitCombine]
  have hw : (wireOf (OutRec.data (Json.obj ms))).data
      = ("data: ".data ++ jStr (Json.obj ms)) ++ "\n\n".data := by
    simp [wireOf, String.data_append]
  rw [respLoop]
  simp only [List.nil_append, hw, hsp, List.flatMap_cons, List.flatMap_nil]
  rw [processLine2_wire_data ms hrt]
  simp [show processLine2 [] = [] from rfl]

theorem respLoop_wires (rs : List OutRec)
    (hshape : ∀ r ∈ rs, r = OutRec.done ∨ ∃ ms, r = OutRec.data (Json.obj ms))
    (hrt : ∀ v, OutRec.data v ∈ rs → jParse (jStr v) = some v) :
    respLoop [] (rs.map wireOf) = rs.flatMap s2step ++ [OutRec.done] := by
  induction rs with
  | nil => simp [respLoop]
  | cons r rs ih =>
    have htail := ih (fun x hx => hshape x (List.mem_cons_of_mem _ hx))
      (fun v hv => hrt v (List.mem_cons_of_mem _ hv))
    rcases hshape r (List.mem_cons_self _ _) with rfl | ⟨ms, rfl⟩
    · rw [List.map_cons, respLoop_cons_done, htail]
      simp [s2step]
    · rw [List.map_cons, respLoop_cons_data ms _ (hrt _ (List.mem_cons_self _ _)), htail]
      simp

/-- Whether an emitted record is the sentinel. -/
def isDoneRec : OutRec → Bool
  | .done => true
  | .data _ => false

theorem s2step_body (now : Nat) (B : List OutRec)
    (h : ∀ r ∈ B, ∃ p, r = OutRec.data (transformStreamChunk p now)) :
    (B.flatMap s2step).length = B.length
    ∧ (∀ r ∈ B.flatMap s2step, isDoneRec r = false)
    ∧ (B.filterMap (fun r => match r with
        | OutRec.data v => some v
        | OutRec.done => none)).length = B.length := by
  induction B with
  | nil => simp
  | cons r rs ih =>
    rcases h r (List.mem_cons_self _ _) with ⟨p, rfl⟩
    have ih2 := ih (fun x hx => h x (List.mem_cons_of_mem _ hx))
    have hs : s2step (OutRec.data (transformStreamChunk p now))
        = [OutRec.data (respChunkOfEvent p now)] := by
      simp [s2step, tcc_event]
    refine ⟨by simp [hs, ih2.1], ?_, by simp [ih2.2.2]⟩
    intro x hx
    simp only [List.flatMap_cons, List.mem_append, hs, List.mem_singleton] at hx
    rcases hx with rfl | hx
    · rfl
    · exact ih2.2.1 x hx

/-- C5: piping a fixed upstream stream through the chat-chunk stage and then
the response-chunk stage (which re-decodes the first stage's wire records)
yields the second stage's output as one ResponseChunk per ChatChunk the
first stage emitted — including the synthesized terminal chunk — with the
first stage's sentinel absorbed rather than forwarded, and exactly one final
sentinel emitted when the underlying byte stream ends.  The hypothesis
states that re-parsing a serialized stage-one chunk recovers it, the
round-trip the platform's `JSON.parse`/`JSON.stringify` pair guarantees. -/
theorem stage_composition (est : String → Nat) (now promptTokens : Nat) (chunks : List String)
    (hrt : ∀ v, OutRec.data v ∈ handleChatStreaming est now promptTokens chunks →
        jParse (jStr v) = some v) :
    handleResponsesStreaming ((handleChatStreaming est now promptTokens chunks).map wireOf)
        = (handleChatStreaming est now promptTokens chunks).flatMap s2step ++ [OutRec.done]
    ∧ (∀ p, s2step (OutRec.data (transformStreamChunk p now))
        = [OutRec.data (respChunkOfEvent p now)])
    ∧ (∀ pt tot, s2step (OutRec.data (finalChunk now pt tot))
        = [OutRec.data (respChunkOfFinal now pt tot)])
    ∧ s2step OutRec.done = []
    ∧ (handleResponsesStreaming ((handleChatStreaming est now promptTokens chunks).map wireOf)).length
        = ((handleChatStreaming est now promptTokens chunks).filterMap (fun r =>
            match r with
            | OutRec.data v => some v
            | OutRec.done => none)).length + 1
    ∧ ((handleResponsesStreaming
          ((handleChatStreaming est now promptTokens chunks).map wireOf)).filter isDoneRec).length
        = 1 := by
  have hout : handleChatStreaming est now promptTokens chunks
      = (processLines est now initChatState (splitP (textOf chunks)).1).2
          ++ [OutRec.data (finalChunk now promptTokens
                (processLines est now initChatState (splitP (textOf chunks)).1).1.totalCompletionTokens),
              OutRec.done] := by
    rw [handleChatStreaming_eq_global]
    rfl
  have hBshape := processLines_shape est now initChatState (splitP (textOf chunks)).1
  have hshape : ∀ r ∈ handleChatStreaming est now promptTokens chunks,
      r = OutRec.done ∨ ∃ ms, r = OutRec.data (Json.obj ms) := by
    rw [hout]
    intro r hr
    rcases List.mem_append.mp hr with h | h
    · rcases hBshape r h with ⟨p, rfl⟩
      exact Or.inr ⟨_, rfl⟩
    · rcases List.mem_cons.mp h with rfl | h1
      · exact Or.inr ⟨_, rfl⟩
      · rcases List.mem_cons.mp h1 with rfl | h2
        · exact Or.inl rfl
        · exact absurd h2 (List.not_mem_nil _)
  have hmain : handleResponsesStreaming ((handleChatStreaming est now promptTokens chunks).map wireOf)
      = (handleChatStreaming est now promptTokens chunks).flatMap s2step ++ [OutRec.done] :=
    respLoop_wires _ hshape hrt
  have hb := s2step_body now _ hBshape
  have hsfin : s2step (OutRec.data (finalChunk now promptTokens
      (processLines est now initChatState (splitP (textOf chunks)).1).1.totalCompletionTokens))
      = [OutRec.data (respChunkOfFinal now promptTokens
          (processLines est now initChatState (splitP (textOf chunks)).1).1.totalCompletionTokens)] := by
    simp [s2step, tcc_final]
  have h2 : ([OutRec.data (finalChunk now promptTokens
        (processLines est now initChatState (splitP (textOf chunks)).1).1.totalCompletionTokens),
      OutRec.done] : List OutRec).flatMap s2step
      = [OutRec.data (respChunkOfFinal now promptTokens
          (processLines est now initChatState (splitP (textOf chunks)).1).1.totalCompletionTokens)] := by
    simp only [List.flatMap_cons, List.flatMap_nil, hsfin]
    rfl
  refine ⟨hmain, fun p => by simp [s2step, tcc_event],
    fun pt tot => by simp [s2step, tcc_final], rfl, ?_, ?_⟩
  · rw [hmain, hout, List.flatMap_append, h2, List.filterMap_append]
    simp [hb.1, hb.2.2]
  · have hfilB : ((processLines est now initChatState (splitP (textOf chunks)).1).2.flatMap
        s2step).filter isDoneRec = [] := by
      rw [List.filter_eq_nil_iff]
      intro a ha
      simp [hb.2.1 a ha]
    rw [hmain, hout, List.flatMap_append, h2, List.filter_append, List.filter_append, hfilB]
    simp [isDoneRec]

set_option maxRecDepth 100000 in
/-- Witness for C5: on the concrete upstream `data: {"response":"Hi"}`, the
composed pipeline emits exactly the transformed chunk per stage-one record
plus one final sentinel. -/
theorem stage_composition_witness :
    handleResponsesStreaming ((handleChatStreaming String.length 3 2
        ["data: \x7b\"response\":\"Hi\"\x7d\n\n"]).map wireOf)
      = (handleChatStreaming String.length 3 2
          ["data: \x7b\"response\":\"Hi\"\x7d\n\n"]).flatMap s2step ++ [OutRec.done] :=
  (stage_composition String.length 3 2 _ (by
    intro v hv
    have hl : handleChatStreaming String.length 3 2 ["data: \x7b\"response\":\"Hi\"\x7d\n\n"]
        = [OutRec.data (transformStreamChunk (Json.obj [("response", Json.str "Hi")]) 3),
           OutRec.data (finalChunk 3 2 2), OutRec.done] := rfl
    rw [hl] at hv
    simp only [List.mem_cons, List.not_mem_nil, or_false] at hv
    rcases hv with hv | hv | hv
    · have he := OutRec.data.inj hv
      subst he
      rfl
    · have he := OutRec.data.inj hv
      subst he
      rfl
    · exact OutRec.noConfusion hv)).1
